import Mathlib

/-!
Verification development for the scalping_trade backtesting core.

The Python source is shallowly embedded: Decimal prices, quantities and
PnL become exact rationals, the string side and regime tags become closed
enumerations, and fallible paths become Option values. Every definition is
translated from the corresponding function in src/; theorems settle the
frozen claims about the engine, the position state machine, the position
sizer, the slippage model and the signal ensembles.
-/

namespace ScalpingTrade

/-- Order side, embedding the string tags BUY and SELL used in the source. -/
inductive Side
  | buy
  | sell
deriving DecidableEq, Repr

/-- Market regime labels from strategies/market_detector.py; `unknown`
stands for any string outside the five canonical labels. -/
inductive Regime
  | trendingUp
  | trendingDown
  | ranging
  | highVolatility
  | breakoutForming
  | unknown
deriving DecidableEq, Repr

/- ### Configuration constants, from src/config/settings.py -/

def BASE_RISK_PER_TRADE : ℚ := 2/100

def MAX_RISK_PER_TRADE : ℚ := 3/100

def MIN_RISK_PER_TRADE : ℚ := 15/1000

def MIN_POSITION_SIZE_USD : ℚ := 15

def MAX_POSITION_SIZE_USD : ℚ := 5000

def TP1_EXIT_FRAC : ℚ := 3/10

def TP2_EXIT_FRAC : ℚ := 4/10

def TP3_EXIT_FRAC : ℚ := 3/10

def MAX_DRAWDOWN : ℚ := 15/100

/- ### Slippage model, from src/execution/slippage_model.py -/

/-- Hourly base spread table (`SlippageModel._initialize_hourly_spreads`,
with the `.get` default 0.005 for an hour outside the table). -/
def hourlySpread (h : ℕ) : ℚ :=
  match h with
  | 0 => 8/1000
  | 1 => 8/1000
  | 2 => 8/1000
  | 3 => 7/1000
  | 4 => 7/1000
  | 5 => 7/1000
  | 6 => 6/1000
  | 7 => 6/1000
  | 8 => 5/1000
  | 9 => 4/1000
  | 10 => 3/1000
  | 11 => 3/1000
  | 12 => 3/1000
  | 13 => 4/1000
  | 14 => 3/1000
  | 15 => 3/1000
  | 16 => 3/1000
  | 17 => 4/1000
  | 18 => 4/1000
  | 19 => 5/1000
  | 20 => 5/1000
  | 21 => 6/1000
  | 22 => 7/1000
  | 23 => 8/1000
  | _ => 5/1000

/-- `SlippageModel._get_volume_multiplier`. -/
def volumeMultiplier (r : ℚ) : ℚ :=
  if r ≥ 2 then 7/10
  else if r ≥ 3/2 then 4/5
  else if r ≥ 6/5 then 9/10
  else if r ≥ 4/5 then 1
  else if r ≥ 1/2 then 13/10
  else 9/5

/-- `SlippageModel._get_regime_multiplier` (dictionary lookup with
default 1.0). -/
def regimeMultiplier : Regime → ℚ
  | .trendingUp => 1
  | .trendingDown => 1
  | .ranging => 9/10
  | .highVolatility => 3/2
  | .breakoutForming => 7/5
  | .unknown => 1

/-- `SlippageModel._calculate_slippage`: product of the three factors,
then clamped below by 0.001 and above by 0.05. -/
def calculateSlippage (volumeRatio : ℚ) (regime : Regime) (hour : ℕ) : ℚ :=
  min (max (hourlySpread hour * volumeMultiplier volumeRatio * regimeMultiplier regime)
        (1/1000))
    (5/100)

/-- `SlippageModel.apply_entry_slippage`: BUY pays more, SELL receives
less. -/
def applyEntrySlippage (price : ℚ) (side : Side) (volumeRatio : ℚ)
    (regime : Regime) (hour : ℕ) : ℚ :=
  let s := calculateSlippage volumeRatio regime hour
  match side with
  | .buy => price * (1 + s)
  | .sell => price * (1 - s)

/-- `SlippageModel.apply_exit_slippage`: a BUY exit sells and receives
less, a SELL exit buys back and pays more. -/
def applyExitSlippage (price : ℚ) (side : Side) (volumeRatio : ℚ)
    (regime : Regime) (hour : ℕ) : ℚ :=
  let s := calculateSlippage volumeRatio regime hour
  match side with
  | .buy => price * (1 - s)
  | .sell => price * (1 + s)

/- ### Trade validation, from BacktestEngine.validate_trade -/

/-- `BacktestEngine.validate_trade`: SL and TP on the correct side of the
entry, reward to risk at least 1, and SL at least 0.2 percent of the entry
away. -/
def validateTrade (side : Side) (entry sl tp : ℚ) : Bool :=
  match side with
  | .buy =>
    if sl ≥ entry then false
    else if tp ≤ entry then false
    else
      let risk := |entry - sl|
      let reward := |tp - entry|
      let rr := if risk > 0 then reward / risk else 0
      if rr < 1 then false
      else if risk < entry * (2/1000) then false
      else true
  | .sell =>
    if sl ≤ entry then false
    else if tp ≥ entry then false
    else
      let risk := |entry - sl|
      let reward := |tp - entry|
      let rr := if risk > 0 then reward / risk else 0
      if rr < 1 then false
      else if risk < entry * (2/1000) then false
      else true

/- ### Position sizer, from src/risk_management/position_sizer.py and
src/core/utils.py -/

/-- Truncation toward zero, as Python Decimal floor division behaves. -/
def qTrunc (x : ℚ) : ℤ :=
  if 0 ≤ x then ⌊x⌋ else ⌈x⌉

/-- `round_down` from src/core/utils.py: `(value // step) * step` with the
step-zero guard. -/
def roundDown (value step : ℚ) : ℚ :=
  if step = 0 then value else (qTrunc (value / step) : ℚ) * step

/-- Exchange filters handed to the sizer (`symbol_filters`). -/
structure SymbolFilters where
  stepSize : ℚ
  minQty : ℚ
  minNotional : ℚ
deriving DecidableEq, Repr

/-- `PositionSizerV2._get_risk_multiplier`: product of the signal-strength
tier, the volume-ratio tier and the regime tier. -/
def getRiskMultiplier (signalStrength volumeRatio : ℚ) (regime : Regime) : ℚ :=
  let m1 : ℚ :=
    if signalStrength ≥ 8/10 then 3/2
    else if signalStrength ≥ 6/10 then 5/4
    else if signalStrength ≥ 4/10 then 1
    else 3/4
  let m2 : ℚ :=
    if volumeRatio ≥ 3/2 then 23/20
    else if volumeRatio ≥ 6/5 then 11/10
    else if volumeRatio ≥ 4/5 then 1
    else if volumeRatio ≥ 1/2 then 4/5
    else 3/5
  let m3 : ℚ :=
    match regime with
    | .trendingUp => 11/10
    | .trendingDown => 11/10
    | .highVolatility => 4/5
    | .breakoutForming => 7/10
    | _ => 1
  m1 * m2 * m3

/-- `PositionSizerV2.calculate_dynamic_position_size`. -/
def calculateDynamicPositionSize (capital entryPrice stopLossPrice : ℚ)
    (filters : SymbolFilters) (signalStrength volumeRatio : ℚ)
    (regime : Regime) : Option ℚ :=
  if capital ≤ 0 ∨ entryPrice ≤ 0 ∨ stopLossPrice = entryPrice then none
  else
    let dynamicRisk :=
      max (min (BASE_RISK_PER_TRADE * getRiskMultiplier signalStrength volumeRatio regime)
            MAX_RISK_PER_TRADE)
        MIN_RISK_PER_TRADE
    let stopLossDistance := |entryPrice - stopLossPrice|
    let riskAmount := capital * dynamicRisk
    let positionSizeUsd := riskAmount / stopLossDistance
    let quantity := roundDown (positionSizeUsd / entryPrice) filters.stepSize
    if quantity < filters.minQty then none
    else if quantity * entryPrice < filters.minNotional then none
    else
      let positionValue := quantity * entryPrice
      if positionValue < MIN_POSITION_SIZE_USD then none
      else if positionValue > MAX_POSITION_SIZE_USD then
        some (roundDown (MAX_POSITION_SIZE_USD / entryPrice) filters.stepSize)
      else some quantity

/- ### Position and trade records, from src/core/engine/base_engine.py -/

/-- The `Position` dataclass fields the backtest engine uses (timestamps
and symbol strings are immaterial to the claims and omitted). -/
structure Position where
  side : Side
  entryPrice : ℚ
  entryQuantity : ℚ
  currentQuantity : ℚ
  stopLoss : ℚ
  takeProfit : ℚ
  tp1 : ℚ
  tp1Hit : Bool
  tp2 : ℚ
  tp2Hit : Bool
  tp3 : ℚ
  tp3Hit : Bool
  regime : Regime
deriving DecidableEq, Repr

/-- The exit-reason strings passed to `_close_position`. -/
inductive ExitReason
  | stopLossHit
  | tp3
  | endOfRun
deriving DecidableEq, Repr

/-- The `TradeLog` dataclass fields relevant to the claims. -/
structure TradeLog where
  side : Side
  entryPrice : ℚ
  entryQuantity : ℚ
  stopLoss : ℚ
  takeProfit : ℚ
  exitPrice : ℚ
  exitQuantity : ℚ
  exitReason : ExitReason
  pnl : ℚ
  winning : Bool
deriving DecidableEq, Repr

/-- `Position.calculate_pnl`: unrealized PnL at a price. -/
def Position.calculatePnl (p : Position) (price : ℚ) : ℚ :=
  match p.side with
  | .buy => (price - p.entryPrice) * p.currentQuantity
  | .sell => (p.entryPrice - price) * p.currentQuantity

/- ### Backtest engine state, from src/backtesting/backtest_engine.py -/

/-- The mutable engine fields that the claims are about. -/
structure EngineState where
  initialCapital : ℚ
  maxDrawdown : ℚ
  closedTradesPnl : ℚ
  position : Option Position
  trades : List TradeLog
  peakEquity : ℚ
  stopTrading : Bool
  equityHistory : List ℚ
  currentPrice : ℚ
deriving DecidableEq, Repr

/-- `BacktestEngine.current_equity` (equal to `current_capital`):
initial capital plus closed PnL plus unrealized PnL of the open
position at `current_price`. -/
def currentEquity (s : EngineState) : ℚ :=
  s.initialCapital + s.closedTradesPnl +
    (match s.position with
     | some p => p.calculatePnl s.currentPrice
     | none => 0)

/-- The realized PnL of one exit leg, sign by side
(shared by `_partial_exit` and `_close_position`). -/
def exitLegPnl (side : Side) (entryPrice exitWithSlippage qty : ℚ) : ℚ :=
  match side with
  | .buy => (exitWithSlippage - entryPrice) * qty
  | .sell => (entryPrice - exitWithSlippage) * qty

/-- `BacktestEngine._partial_exit`: slippage-adjust the trigger price,
add the leg PnL to the accumulator, reduce the current quantity.
No TradeLog is appended. The exit slippage call uses volume ratio 1.0 and
the position regime; `hour` stands for the wall-clock hour the model
reads. Returns the updated engine state and position. -/
def applyPartExit (s : EngineState) (p : Position) (exitQuantity exitPrice : ℚ)
    (hour : ℕ) : EngineState × Position :=
  let exitWithSlippage := applyExitSlippage exitPrice p.side 1 p.regime hour
  let pnl := exitLegPnl p.side p.entryPrice exitWithSlippage exitQuantity
  ({ s with closedTradesPnl := s.closedTradesPnl + pnl },
   { p with currentQuantity := p.currentQuantity - exitQuantity })

/-- `BacktestEngine._close_position`: slippage-adjust the trigger price,
realize the PnL of the remaining quantity, append one TradeLog, clear the
position. -/
def closePosition (s : EngineState) (p : Position) (exitPrice : ℚ)
    (reason : ExitReason) (hour : ℕ) : EngineState :=
  let exitWithSlippage := applyExitSlippage exitPrice p.side 1 p.regime hour
  let pnl := exitLegPnl p.side p.entryPrice exitWithSlippage p.currentQuantity
  let trade : TradeLog :=
    { side := p.side
      entryPrice := p.entryPrice
      entryQuantity := p.entryQuantity
      stopLoss := p.stopLoss
      takeProfit := p.takeProfit
      exitPrice := exitWithSlippage
      exitQuantity := p.currentQuantity
      exitReason := reason
      pnl := pnl
      winning := decide (pnl > 0) }
  { s with
      closedTradesPnl := s.closedTradesPnl + pnl
      trades := s.trades ++ [trade]
      position := none }

/-- `BacktestEngine._monitor_position`: stop loss first, then the
TP1 / TP2 / TP3 elif chain; at most one branch fires per bar. The TP1
branch promotes the stop to the entry price. -/
def monitorPosition (s : EngineState) (p : Position) (price : ℚ)
    (hour : ℕ) : EngineState :=
  match p.side with
  | .buy =>
    if price ≤ p.stopLoss then closePosition s p price .stopLossHit hour
    else if p.tp1Hit = false ∧ price ≥ p.tp1 then
      let p1 := { p with tp1Hit := true }
      let exitQty := p1.currentQuantity * TP1_EXIT_FRAC
      let sp := applyPartExit s p1 exitQty price hour
      { sp.1 with position := some { sp.2 with stopLoss := sp.2.entryPrice } }
    else if p.tp2Hit = false ∧ price ≥ p.tp2 then
      let p1 := { p with tp2Hit := true }
      let exitQty := p1.currentQuantity * TP2_EXIT_FRAC
      let sp := applyPartExit s p1 exitQty price hour
      { sp.1 with position := some sp.2 }
    else if p.tp3Hit = false ∧ price ≥ p.takeProfit then
      closePosition s p price .tp3 hour
    else { s with position := some p }
  | .sell =>
    if price ≥ p.stopLoss then closePosition s p price .stopLossHit hour
    else if p.tp1Hit = false ∧ price ≤ p.tp1 then
      let p1 := { p with tp1Hit := true }
      let exitQty := p1.currentQuantity * TP1_EXIT_FRAC
      let sp := applyPartExit s p1 exitQty price hour
      { sp.1 with position := some { sp.2 with stopLoss := sp.2.entryPrice } }
    else if p.tp2Hit = false ∧ price ≤ p.tp2 then
      let p1 := { p with tp2Hit := true }
      let exitQty := p1.currentQuantity * TP2_EXIT_FRAC
      let sp := applyPartExit s p1 exitQty price hour
      { sp.1 with position := some sp.2 }
    else if p.tp3Hit = false ∧ price ≤ p.takeProfit then
      closePosition s p price .tp3 hour
    else { s with position := some p }

/-- The drawdown computed inside `BacktestEngine._record_equity` after
updating the peak. -/
def currentDrawdown (s : EngineState) : ℚ :=
  let eq := currentEquity s
  let peak := if eq > s.peakEquity then eq else s.peakEquity
  if peak > 0 then (peak - eq) / peak else 0

/-- `BacktestEngine._record_equity`: raise the peak, compute the drawdown,
set the one-way stop flag when the drawdown strictly exceeds the limit,
append the sample. -/
def recordEquity (s : EngineState) : EngineState :=
  let eq := currentEquity s
  let peak := if eq > s.peakEquity then eq else s.peakEquity
  let dd := if peak > 0 then (peak - eq) / peak else 0
  { s with
      peakEquity := peak
      stopTrading := s.stopTrading || decide (dd > s.maxDrawdown)
      equityHistory := s.equityHistory ++ [dd] }

/- ### The per-bar loop of BacktestEngine.run_backtest -/

/-- One bar of the loop body. `price` is the 5m close, `hour` the
wall-clock hour the slippage model reads, `hist15Short` the
`len(hist_15m) < 50` skip, and `entrySignal` the outcome of
`_check_entry_signal` on this bar (the position it would open, or none),
abstracting the regime gate, the ensemble, the validator, the sizer and
the entry slippage, which the loop only observes through this outcome. -/
structure Bar where
  price : ℚ
  hour : ℕ
  hist15Short : Bool
  entrySignal : Option Position
deriving Repr

/-- The body of the `for` loop in `run_backtest`: set the current price,
skip short 15m histories, monitor an open position or take the entry
outcome, then record equity. -/
def processBar (s : EngineState) (b : Bar) : EngineState :=
  let s0 := { s with currentPrice := b.price }
  if b.hist15Short then s0
  else
    let s1 :=
      match s0.position with
      | some p => monitorPosition s0 p b.price b.hour
      | none => { s0 with position := b.entrySignal }
    recordEquity s1

/-- The bar loop with the `stop_trading` break at the top of each
iteration. -/
def runLoop (s : EngineState) : List Bar → EngineState
  | [] => s
  | b :: rest => if s.stopTrading then s else runLoop (processBar s b) rest

/-- Exit legs (quantity, slippage-adjusted price) that
`_monitor_position` realizes on one bar; mirrors `monitorPosition`
branch by branch. -/
def barLegs (p : Position) (price : ℚ) (hour : ℕ) : List (ℚ × ℚ) :=
  match p.side with
  | .buy =>
    if price ≤ p.stopLoss then
      [(p.currentQuantity, applyExitSlippage price p.side 1 p.regime hour)]
    else if p.tp1Hit = false ∧ price ≥ p.tp1 then
      [(p.currentQuantity * TP1_EXIT_FRAC, applyExitSlippage price p.side 1 p.regime hour)]
    else if p.tp2Hit = false ∧ price ≥ p.tp2 then
      [(p.currentQuantity * TP2_EXIT_FRAC, applyExitSlippage price p.side 1 p.regime hour)]
    else if p.tp3Hit = false ∧ price ≥ p.takeProfit then
      [(p.currentQuantity, applyExitSlippage price p.side 1 p.regime hour)]
    else []
  | .sell =>
    if price ≥ p.stopLoss then
      [(p.currentQuantity, applyExitSlippage price p.side 1 p.regime hour)]
    else if p.tp1Hit = false ∧ price ≤ p.tp1 then
      [(p.currentQuantity * TP1_EXIT_FRAC, applyExitSlippage price p.side 1 p.regime hour)]
    else if p.tp2Hit = false ∧ price ≤ p.tp2 then
      [(p.currentQuantity * TP2_EXIT_FRAC, applyExitSlippage price p.side 1 p.regime hour)]
    else if p.tp3Hit = false ∧ price ≤ p.takeProfit then
      [(p.currentQuantity, applyExitSlippage price p.side 1 p.regime hour)]
    else []

/-- Sum of the leg quantities of a leg list. -/
def legsQty (legs : List (ℚ × ℚ)) : ℚ :=
  (legs.map Prod.fst).sum

/-- Sum of the realized PnL of a leg list for a fixed side and entry. -/
def legsPnl (side : Side) (entryPrice : ℚ) (legs : List (ℚ × ℚ)) : ℚ :=
  (legs.map fun l => exitLegPnl side entryPrice l.2 l.1).sum

/-- All exit legs the loop realizes, following the exact control flow of
`runLoop`. -/
def runLegs (s : EngineState) : List Bar → List (ℚ × ℚ)
  | [] => []
  | b :: rest =>
    if s.stopTrading then []
    else
      (if b.hist15Short then []
       else
         match s.position with
         | some p => barLegs p b.price b.hour
         | none => []) ++ runLegs (processBar s b) rest

/- ### run_backtest top level -/

/-- The reasons `run_backtest` returns a `{error: ...}` record. -/
inductive ErrReason
  | noData
  | syncError
  | insufficientData
  | noTrades
deriving DecidableEq, Repr

/-- The outcome of `run_backtest`: a failure record or the results dict
(carrying the trade list and the equity curve that the claims are
about). -/
inductive RunResult
  | failure (reason : ErrReason)
  | ok (trades : List TradeLog) (equityCurve : List ℚ)
deriving DecidableEq, Repr

/-- The data-loading and synchronization stage of `run_backtest`,
abstracted to its observable checks: empty frames, the synchronizer
raising, and the post-sync length minimums. -/
structure BacktestInput where
  df5mEmpty : Bool
  df15mEmpty : Bool
  syncOk : Bool
  len5m : ℕ
  len15m : ℕ
  bars : List Bar
deriving Repr

/-- The engine state after the bar loop and the final forced close of
`run_backtest` (the close uses `self.current_price` and the wall-clock
hour `finalHour`). -/
def finalState (inp : BacktestInput) (s : EngineState) (finalHour : ℕ) :
    EngineState :=
  let s1 := runLoop s inp.bars
  match s1.position with
  | some p => closePosition s1 p s1.currentPrice .endOfRun finalHour
  | none => s1

/-- `BacktestEngine.run_backtest` followed by `_generate_results`:
data checks first, then the loop, the forced close, and the
no-trades check of `_generate_results`. -/
def runBacktest (inp : BacktestInput) (s : EngineState) (finalHour : ℕ) :
    RunResult :=
  if inp.df5mEmpty || inp.df15mEmpty then .failure .noData
  else if !inp.syncOk then .failure .syncError
  else if inp.len5m < 50 || inp.len15m < 10 then .failure .insufficientData
  else
    let s2 := finalState inp s finalHour
    if s2.trades.isEmpty then .failure .noTrades
    else .ok s2.trades s2.equityHistory

/- ### Signal ensembles, from src/strategies/smart_scalping_ensemble.py
and src/strategies/scalping_ensemble.py -/

/-- The per-strategy inputs to an ensemble aggregation: the 5m and 15m
(side, strength) outputs of one sub-strategy and its weight. Sub-strategy
internals are opaque to the ensembles. -/
structure StratVote where
  side5 : Option Side
  strength5 : ℚ
  side15 : Option Side
  strength15 : ℚ
  weight : ℚ
deriving Repr

/-- The 5m and 15m combination in `SmartScalpingEnsemble`:
70 percent 5m plus 30 percent 15m. -/
def smartCombined (v : StratVote) : ℚ :=
  v.strength5 * (7/10) + v.strength15 * (3/10)

/-- The buy side accumulation loop of
`SmartScalpingEnsemble.get_ensemble_signal`, with the 1.15 agreement
bonus. -/
def smartBuyStrength (votes : List StratVote) : ℚ :=
  votes.foldl
    (fun acc v =>
      match v.side5 with
      | some .buy =>
        acc + (if v.side15 = some Side.buy then smartCombined v * (23/20)
               else smartCombined v) * v.weight
      | _ => acc)
    0

/-- The sell side accumulation loop of
`SmartScalpingEnsemble.get_ensemble_signal`. -/
def smartSellStrength (votes : List StratVote) : ℚ :=
  votes.foldl
    (fun acc v =>
      match v.side5 with
      | some .sell =>
        acc + (if v.side15 = some Side.sell then smartCombined v * (23/20)
               else smartCombined v) * v.weight
      | _ => acc)
    0

/-- `SmartScalpingEnsemble._get_threshold_for_regime`. -/
def smartThreshold : Regime → ℚ
  | .trendingUp => 1/4
  | .trendingDown => 1/4
  | .ranging => 7/20
  | .highVolatility => 3/10
  | .breakoutForming => 2/5
  | .unknown => 3/10

/-- The final decision of `SmartScalpingEnsemble.get_ensemble_signal`:
the winning side must strictly beat the other and exceed the regime
threshold; the returned strength is the raw aggregate. -/
def smartEnsembleSignal (votes : List StratVote) (regime : Regime) :
    Option (Side × ℚ) :=
  let b := smartBuyStrength votes
  let sl := smartSellStrength votes
  let t := smartThreshold regime
  if b > sl ∧ b > t then some (.buy, b)
  else if sl > b ∧ sl > t then some (.sell, sl)
  else none

/-- The per-strategy combined strength in
`ScalpingEnsemble.get_ensemble_signal`: 1.2 bonus on agreement, 0.9 when
the 15m is neutral, 0.5 when it disagrees. -/
def scalpCombined (strength5 : ℚ) (agree : Bool) (neutral : Bool) : ℚ :=
  if agree then strength5 * (6/5)
  else if neutral then strength5 * (9/10)
  else strength5 * (1/2)

/-- Buy score and agreement count of
`ScalpingEnsemble.get_ensemble_signal`. -/
def scalpBuyAgg (votes : List StratVote) : ℚ × ℕ :=
  votes.foldl
    (fun acc v =>
      match v.side5 with
      | some .buy =>
        (acc.1 + scalpCombined v.strength5 (v.side15 = some Side.buy)
            (v.side15 = none) * v.weight,
         acc.2 + (if v.side15 = some Side.buy then 1 else 0))
      | _ => acc)
    (0, 0)

/-- Sell score and agreement count of
`ScalpingEnsemble.get_ensemble_signal`. -/
def scalpSellAgg (votes : List StratVote) : ℚ × ℕ :=
  votes.foldl
    (fun acc v =>
      match v.side5 with
      | some .sell =>
        (acc.1 + scalpCombined v.strength5 (v.side15 = some Side.sell)
            (v.side15 = none) * v.weight,
         acc.2 + (if v.side15 = some Side.sell then 1 else 0))
      | _ => acc)
    (0, 0)

/-- The three-tier adaptive threshold of `ScalpingEnsemble`. -/
def scalpThreshold (agreements : ℕ) : ℚ :=
  if agreements ≥ 3 then 1/4
  else if agreements ≥ 2 then 7/20
  else 1/2

/-- The final decision of `ScalpingEnsemble.get_ensemble_signal`; the
returned strength is capped at 1.0 by `min`. -/
def scalpEnsembleSignal (votes : List StratVote) : Option (Side × ℚ) :=
  let b := (scalpBuyAgg votes).1
  let sl := (scalpSellAgg votes).1
  let bt := scalpThreshold (scalpBuyAgg votes).2
  let st := scalpThreshold (scalpSellAgg votes).2
  if b > sl ∧ b > bt then some (.buy, min b 1)
  else if sl > b ∧ sl > st then some (.sell, min sl 1)
  else none

/- ### Theorems -/

/-- C5: validate_trade returns true if and only if the stop and target
are on the correct side of the entry (stop below and target above for a
BUY, inverted for a SELL), the reward to risk ratio is at least 1.0, and
the stop distance is at least 0.2 percent of the entry; concretely,
BUY 40000 / SL 39500 / TP 41000 validates and BUY 40000 / SL 40500 is
rejected for every target. -/
theorem validateTrade_spec (e sl tp : ℚ) :
    (validateTrade .buy e sl tp = true ↔
      sl < e ∧ e < tp ∧ (tp - e) / (e - sl) ≥ 1 ∧ e - sl ≥ e * (2/1000)) ∧
    (validateTrade .sell e sl tp = true ↔
      e < sl ∧ tp < e ∧ (e - tp) / (sl - e) ≥ 1 ∧ sl - e ≥ e * (2/1000)) ∧
    validateTrade .buy 40000 39500 41000 = true ∧
    validateTrade .buy 40000 40500 tp = false := by
  refine ⟨?_, ?_, by norm_num [validateTrade], by norm_num [validateTrade]⟩
  · by_cases h1 : e ≤ sl
    · have hv : validateTrade .buy e sl tp = false := by
        simp [validateTrade, h1]
      rw [hv]
      simp only [Bool.false_eq_true, false_iff, not_and]
      intro h; exact absurd h1 (not_le.mpr h)
    · push_neg at h1
      by_cases h2 : tp ≤ e
      · have hv : validateTrade .buy e sl tp = false := by
          simp [validateTrade, not_le.mpr h1, h2]
        rw [hv]
        simp only [Bool.false_eq_true, false_iff, not_and]
        intro _ h; exact absurd h2 (not_le.mpr h)
      · push_neg at h2
        have habs1 : |e - sl| = e - sl := abs_of_pos (by linarith)
        have habs2 : |tp - e| = tp - e := abs_of_pos (by linarith)
        have hv : validateTrade .buy e sl tp =
            (if (tp - e) / (e - sl) < 1 then false
             else if e - sl < e * (2/1000) then false else true) := by
          simp [validateTrade, not_le.mpr h1, not_le.mpr h2, habs1, habs2,
            (by linarith : (0:ℚ) < e - sl)]
        rw [hv]
        by_cases h3 : (tp - e) / (e - sl) < 1
        · rw [if_pos h3]
          simp only [Bool.false_eq_true, false_iff, not_and]
          intro _ _ h _; exact absurd h3 (not_lt.mpr h)
        · rw [if_neg h3]
          by_cases h4 : e - sl < e * (2/1000)
          · rw [if_pos h4]
            simp only [Bool.false_eq_true, false_iff, not_and]
            intro _ _ _ h; exact absurd h4 (not_lt.mpr h)
          · rw [if_neg h4]
            simp only [true_iff]
            exact ⟨h1, h2, not_lt.mp h3, not_lt.mp h4⟩
  · by_cases h1 : sl ≤ e
    · have hv : validateTrade .sell e sl tp = false := by
        simp [validateTrade, h1]
      rw [hv]
      simp only [Bool.false_eq_true, false_iff, not_and]
      intro h; exact absurd h1 (not_le.mpr h)
    · push_neg at h1
      by_cases h2 : e ≤ tp
      · have hv : validateTrade .sell e sl tp = false := by
          simp [validateTrade, not_le.mpr h1, h2]
        rw [hv]
        simp only [Bool.false_eq_true, false_iff, not_and]
        intro _ h; exact absurd h2 (not_le.mpr h)
      · push_neg at h2
        have habs1 : |e - sl| = sl - e := by
          rw [abs_sub_comm]; exact abs_of_pos (by linarith)
        have habs2 : |tp - e| = e - tp := by
          rw [abs_sub_comm]; exact abs_of_pos (by linarith)
        have hv : validateTrade .sell e sl tp =
            (if (e - tp) / (sl - e) < 1 then false
             else if sl - e < e * (2/1000) then false else true) := by
          simp [validateTrade, not_le.mpr h1, not_le.mpr h2, habs1, habs2,
            (by linarith : (0:ℚ) < sl - e)]
        rw [hv]
        by_cases h3 : (e - tp) / (sl - e) < 1
        · rw [if_pos h3]
          simp only [Bool.false_eq_true, false_iff, not_and]
          intro _ _ h _; exact absurd h3 (not_lt.mpr h)
        · rw [if_neg h3]
          by_cases h4 : sl - e < e * (2/1000)
          · rw [if_pos h4]
            simp only [Bool.false_eq_true, false_iff, not_and]
            intro _ _ _ h; exact absurd h4 (not_lt.mpr h)
          · rw [if_neg h4]
            simp only [true_iff]
            exact ⟨h1, h2, not_lt.mp h3, not_lt.mp h4⟩

/-- C7: the slippage fraction equals the clamped product of the hourly
base spread, the volume multiplier and the regime multiplier, lies
in [0.001, 0.05], and for a positive reference price the entry fill and
exit proceeds always move against the trader on both sides. -/
theorem slippage_spec (price vr : ℚ) (regime : Regime) (hour : ℕ)
    (hp : 0 < price) :
    calculateSlippage vr regime hour =
      min (max (hourlySpread hour * volumeMultiplier vr * regimeMultiplier regime)
            (1/1000)) (5/100) ∧
    1/1000 ≤ calculateSlippage vr regime hour ∧
    calculateSlippage vr regime hour ≤ 5/100 ∧
    price ≤ applyEntrySlippage price .buy vr regime hour ∧
    applyEntrySlippage price .sell vr regime hour ≤ price ∧
    applyExitSlippage price .buy vr regime hour ≤ price ∧
    price ≤ applyExitSlippage price .sell vr regime hour := by
  have h1 : 1/1000 ≤ calculateSlippage vr regime hour :=
    le_min (le_max_right _ _) (by norm_num)
  have h2 : calculateSlippage vr regime hour ≤ 5/100 := min_le_right _ _
  have hs0 : 0 ≤ calculateSlippage vr regime hour :=
    le_trans (by norm_num) h1
  have hm : 0 ≤ price * calculateSlippage vr regime hour :=
    mul_nonneg hp.le hs0
  refine ⟨rfl, h1, h2, ?_, ?_, ?_, ?_⟩
  · show price ≤ price * (1 + calculateSlippage vr regime hour)
    nlinarith
  · show price * (1 - calculateSlippage vr regime hour) ≤ price
    nlinarith
  · show price * (1 - calculateSlippage vr regime hour) ≤ price
    nlinarith
  · show price ≤ price * (1 + calculateSlippage vr regime hour)
    nlinarith

/-- Witness for C7 at price 40000, volume ratio 1, RANGING, hour 10. -/
theorem slippage_spec_witness :
    (0:ℚ) < 40000 ∧
    1/1000 ≤ calculateSlippage 1 .ranging 10 ∧
    (40000:ℚ) ≤ applyEntrySlippage 40000 .buy 1 .ranging 10 :=
  ⟨by norm_num, (slippage_spec 40000 1 .ranging 10 (by norm_num)).2.1,
    (slippage_spec 40000 1 .ranging 10 (by norm_num)).2.2.2.1⟩

/-- The quantity the sizer computes before the rejection checks: capital
times the clamped dynamic risk, divided by the stop distance and the
entry price, rounded down to the step size. This is the same expression
`calculate_dynamic_position_size` builds through its intermediate
variables. -/
def sizedQuantity (capital e sl : ℚ) (f : SymbolFilters) (ss vr : ℚ)
    (r : Regime) : ℚ :=
  roundDown
    (capital *
        max (min (BASE_RISK_PER_TRADE * getRiskMultiplier ss vr r)
              MAX_RISK_PER_TRADE)
          MIN_RISK_PER_TRADE /
        |e - sl| / e)
    f.stepSize

/-- When the stop coincides with the entry the quantity expression
degenerates to zero (division by zero is zero over the rationals). -/
theorem sizedQuantity_sl_eq (capital e : ℚ) (f : SymbolFilters)
    (ss vr : ℚ) (r : Regime) : sizedQuantity capital e e f ss vr r = 0 := by
  unfold sizedQuantity roundDown qTrunc
  simp

/-- Unfolding of the sizer once the basic-validity guard passes. -/
theorem calculateDynamicPositionSize_eq (capital e sl : ℚ)
    (f : SymbolFilters) (ss vr : ℚ) (r : Regime)
    (h : ¬(capital ≤ 0 ∨ e ≤ 0 ∨ sl = e)) :
    calculateDynamicPositionSize capital e sl f ss vr r =
      (if sizedQuantity capital e sl f ss vr r < f.minQty then none
       else if sizedQuantity capital e sl f ss vr r * e < f.minNotional then none
       else if sizedQuantity capital e sl f ss vr r * e < MIN_POSITION_SIZE_USD then none
       else if sizedQuantity capital e sl f ss vr r * e > MAX_POSITION_SIZE_USD then
         some (roundDown (MAX_POSITION_SIZE_USD / e) f.stepSize)
       else some (sizedQuantity capital e sl f ss vr r)) := by
  unfold calculateDynamicPositionSize
  rw [if_neg h]
  rfl

/-- C6: the dynamic sizer returns no size exactly when capital or entry
price is nonpositive, or the step-rounded quantity is below the minimum
quantity, or its notional is below the minimum notional, or the position
value is below the minimum position value; when the position value
exceeds the maximum it returns the quantity clamped down to the maximum,
and otherwise it returns the rounded quantity itself. -/
theorem positionSizer_spec (capital e sl : ℚ) (f : SymbolFilters)
    (ss vr : ℚ) (r : Regime) :
    (calculateDynamicPositionSize capital e sl f ss vr r = none ↔
      capital ≤ 0 ∨ e ≤ 0 ∨
      sizedQuantity capital e sl f ss vr r < f.minQty ∨
      sizedQuantity capital e sl f ss vr r * e < f.minNotional ∨
      sizedQuantity capital e sl f ss vr r * e < MIN_POSITION_SIZE_USD) ∧
    (0 < capital → 0 < e →
      f.minQty ≤ sizedQuantity capital e sl f ss vr r →
      f.minNotional ≤ sizedQuantity capital e sl f ss vr r * e →
      MIN_POSITION_SIZE_USD ≤ sizedQuantity capital e sl f ss vr r * e →
      MAX_POSITION_SIZE_USD < sizedQuantity capital e sl f ss vr r * e →
      calculateDynamicPositionSize capital e sl f ss vr r =
        some (roundDown (MAX_POSITION_SIZE_USD / e) f.stepSize)) ∧
    (0 < capital → 0 < e →
      f.minQty ≤ sizedQuantity capital e sl f ss vr r →
      f.minNotional ≤ sizedQuantity capital e sl f ss vr r * e →
      MIN_POSITION_SIZE_USD ≤ sizedQuantity capital e sl f ss vr r * e →
      sizedQuantity capital e sl f ss vr r * e ≤ MAX_POSITION_SIZE_USD →
      calculateDynamicPositionSize capital e sl f ss vr r =
        some (sizedQuantity capital e sl f ss vr r)) := by
  refine ⟨?_, ?_, ?_⟩
  · by_cases hg : capital ≤ 0 ∨ e ≤ 0 ∨ sl = e
    · constructor
      · intro _
        rcases hg with h | h | h
        · exact Or.inl h
        · exact Or.inr (Or.inl h)
        · subst h
          refine Or.inr (Or.inr (Or.inr (Or.inr ?_)))
          rw [sizedQuantity_sl_eq]
          norm_num [MIN_POSITION_SIZE_USD]
      · intro _
        unfold calculateDynamicPositionSize
        rw [if_pos hg]
    · rw [calculateDynamicPositionSize_eq capital e sl f ss vr r hg]
      push_neg at hg
      obtain ⟨hc, he, _⟩ := hg
      constructor
      · intro h
        split_ifs at h with h1 h2 h3 h4
        all_goals first
          | exact Or.inr (Or.inr (Or.inl h1))
          | exact Or.inr (Or.inr (Or.inr (Or.inl h2)))
          | exact Or.inr (Or.inr (Or.inr (Or.inr h3)))
      · rintro (h | h | h | h | h)
        · exact absurd h (not_le.mpr hc)
        · exact absurd h (not_le.mpr he)
        · rw [if_pos h]
        · by_cases h1 : sizedQuantity capital e sl f ss vr r < f.minQty
          · rw [if_pos h1]
          · rw [if_neg h1, if_pos h]
        · by_cases h1 : sizedQuantity capital e sl f ss vr r < f.minQty
          · rw [if_pos h1]
          · rw [if_neg h1]
            by_cases h2 :
                sizedQuantity capital e sl f ss vr r * e < f.minNotional
            · rw [if_pos h2]
            · rw [if_neg h2, if_pos h]
  · intro hc he h1 h2 h3 h4
    by_cases hsl : sl = e
    · exfalso
      rw [hsl, sizedQuantity_sl_eq] at h3
      norm_num [MIN_POSITION_SIZE_USD] at h3
    · rw [calculateDynamicPositionSize_eq capital e sl f ss vr r
        (by push_neg; exact ⟨hc, he, hsl⟩)]
      rw [if_neg (not_lt.mpr h1), if_neg (not_lt.mpr h2),
        if_neg (not_lt.mpr h3), if_pos h4]
  · intro hc he h1 h2 h3 h4
    by_cases hsl : sl = e
    · exfalso
      rw [hsl, sizedQuantity_sl_eq] at h3
      norm_num [MIN_POSITION_SIZE_USD] at h3
    · rw [calculateDynamicPositionSize_eq capital e sl f ss vr r
        (by push_neg; exact ⟨hc, he, hsl⟩)]
      rw [if_neg (not_lt.mpr h1), if_neg (not_lt.mpr h2),
        if_neg (not_lt.mpr h3), if_neg (not_lt.mpr h4)]

/-- Witness for C6: with capital 10000, entry 100, stop 95, the engine
filters, signal strength 0.5 and volume ratio 1 in RANGING, the sizer
returns the rounded quantity; with capital 10000000 the position value
exceeds the maximum and the sizer returns the clamped quantity. -/
theorem positionSizer_spec_witness :
    calculateDynamicPositionSize 10000 100 95 ⟨1/1000, 1/1000, 5⟩ (1/2) 1 .ranging =
      some (sizedQuantity 10000 100 95 ⟨1/1000, 1/1000, 5⟩ (1/2) 1 .ranging) ∧
    calculateDynamicPositionSize 10000000 100 95 ⟨1/1000, 1/1000, 5⟩ (1/2) 1 .ranging =
      some (roundDown (MAX_POSITION_SIZE_USD / 100) (1/1000)) := by
  have hq1 : sizedQuantity 10000 100 95 ⟨1/1000, 1/1000, 5⟩ (1/2) 1 .ranging = 2/5 := by
    norm_num [sizedQuantity, roundDown, qTrunc, getRiskMultiplier,
      BASE_RISK_PER_TRADE, MAX_RISK_PER_TRADE, MIN_RISK_PER_TRADE,
      min_def, max_def]
  have hq2 : sizedQuantity 10000000 100 95 ⟨1/1000, 1/1000, 5⟩ (1/2) 1 .ranging = 400 := by
    norm_num [sizedQuantity, roundDown, qTrunc, getRiskMultiplier,
      BASE_RISK_PER_TRADE, MAX_RISK_PER_TRADE, MIN_RISK_PER_TRADE,
      min_def, max_def]
  constructor
  · exact (positionSizer_spec 10000 100 95 ⟨1/1000, 1/1000, 5⟩ (1/2) 1 .ranging).2.2
      (by norm_num) (by norm_num) (by rw [hq1]; norm_num) (by rw [hq1]; norm_num)
      (by rw [hq1]; norm_num [MIN_POSITION_SIZE_USD])
      (by rw [hq1]; norm_num [MAX_POSITION_SIZE_USD])
  · exact (positionSizer_spec 10000000 100 95 ⟨1/1000, 1/1000, 5⟩ (1/2) 1 .ranging).2.1
      (by norm_num) (by norm_num) (by rw [hq2]; norm_num) (by rw [hq2]; norm_num)
      (by rw [hq2]; norm_num [MIN_POSITION_SIZE_USD])
      (by rw [hq2]; norm_num [MAX_POSITION_SIZE_USD])

/-- Every agreement-count threshold of the scalping ensemble is at least
one quarter. -/
theorem scalpThreshold_ge (n : ℕ) : 1/4 ≤ scalpThreshold n := by
  unfold scalpThreshold
  split_ifs <;> norm_num

/-- Four full-strength agreeing BUY votes under the TRENDING_UP weights
0.30 / 0.30 / 0.20 / 0.20 of the smart ensemble. -/
def fullAgreeVotes : List StratVote :=
  [⟨some .buy, 1, some .buy, 1, 3/10⟩,
   ⟨some .buy, 1, some .buy, 1, 3/10⟩,
   ⟨some .buy, 1, some .buy, 1, 2/10⟩,
   ⟨some .buy, 1, some .buy, 1, 2/10⟩]

/-- C8 counterexample: on four full-strength agreeing BUY votes in
TRENDING_UP, the smart ensemble returns a BUY whose returned strength is
1.15, which is not inside [0, 1]: the smart ensemble does not clip the
strength it returns. -/
theorem smartEnsemble_strength_exceeds_one :
    smartEnsembleSignal fullAgreeVotes .trendingUp = some (Side.buy, 23/20) ∧
    ¬(23/20 : ℚ) ≤ 1 := by
  constructor
  · norm_num [smartEnsembleSignal, smartBuyStrength, smartSellStrength,
      smartCombined, smartThreshold, fullAgreeVotes, List.foldl]
  · norm_num

/-- C8 amended: both ensembles return a side exactly when the aggregated
score of that side strictly exceeds the opposite score and its threshold;
the scalping ensemble caps the returned strength at 1 (so it lies
in [0, 1]), while the smart ensemble returns the raw aggregated score
without clipping. -/
theorem ensemble_decision_spec (votes : List StratVote) (regime : Regime) :
    (∀ st, smartEnsembleSignal votes regime = some (Side.buy, st) →
      smartBuyStrength votes > smartSellStrength votes ∧
      smartBuyStrength votes > smartThreshold regime ∧
      st = smartBuyStrength votes) ∧
    (∀ st, smartEnsembleSignal votes regime = some (Side.sell, st) →
      smartSellStrength votes > smartBuyStrength votes ∧
      smartSellStrength votes > smartThreshold regime ∧
      st = smartSellStrength votes) ∧
    (smartEnsembleSignal votes regime = none ↔
      ¬(smartBuyStrength votes > smartSellStrength votes ∧
        smartBuyStrength votes > smartThreshold regime) ∧
      ¬(smartSellStrength votes > smartBuyStrength votes ∧
        smartSellStrength votes > smartThreshold regime)) ∧
    (∀ side st, scalpEnsembleSignal votes = some (side, st) →
      0 ≤ st ∧ st ≤ 1) ∧
    (∀ st, scalpEnsembleSignal votes = some (Side.buy, st) →
      (scalpBuyAgg votes).1 > (scalpSellAgg votes).1 ∧
      (scalpBuyAgg votes).1 > scalpThreshold (scalpBuyAgg votes).2 ∧
      st = min (scalpBuyAgg votes).1 1) ∧
    (∀ st, scalpEnsembleSignal votes = some (Side.sell, st) →
      (scalpSellAgg votes).1 > (scalpBuyAgg votes).1 ∧
      (scalpSellAgg votes).1 > scalpThreshold (scalpSellAgg votes).2 ∧
      st = min (scalpSellAgg votes).1 1) := by
  refine ⟨?_, ?_, ?_, ?_, ?_, ?_⟩
  · intro st h
    unfold smartEnsembleSignal at h
    simp only [] at h
    split_ifs at h with h1 h2
    all_goals first
      | (have hst := (Prod.mk.injEq _ _ _ _).mp (Option.some.inj h)
         exact ⟨h1.1, h1.2, hst.2.symm⟩)
      | simp at h
  · intro st h
    unfold smartEnsembleSignal at h
    simp only [] at h
    split_ifs at h with h1 h2
    all_goals first
      | (have hst := (Prod.mk.injEq _ _ _ _).mp (Option.some.inj h)
         exact ⟨h2.1, h2.2, hst.2.symm⟩)
      | simp at h
  · unfold smartEnsembleSignal
    simp only []
    split_ifs with h1 h2
    · refine iff_of_false (by simp) ?_
      intro hc
      exact hc.1 h1
    · refine iff_of_false (by simp) ?_
      intro hc
      exact hc.2 h2
    · exact iff_of_true rfl ⟨h1, h2⟩
  · intro side st h
    unfold scalpEnsembleSignal at h
    simp only [] at h
    split_ifs at h with h1 h2
    all_goals first
      | (have hst := ((Prod.mk.injEq _ _ _ _).mp (Option.some.inj h)).2.symm
         have hpos : (0:ℚ) < (scalpBuyAgg votes).1 :=
           lt_of_lt_of_le (by norm_num) (le_trans (scalpThreshold_ge _) h1.2.le)
         exact ⟨hst ▸ le_min hpos.le (by norm_num), hst ▸ min_le_right _ _⟩)
      | (have hst := ((Prod.mk.injEq _ _ _ _).mp (Option.some.inj h)).2.symm
         have hpos : (0:ℚ) < (scalpSellAgg votes).1 :=
           lt_of_lt_of_le (by norm_num) (le_trans (scalpThreshold_ge _) h2.2.le)
         exact ⟨hst ▸ le_min hpos.le (by norm_num), hst ▸ min_le_right _ _⟩)
  · intro st h
    unfold scalpEnsembleSignal at h
    simp only [] at h
    split_ifs at h with h1 h2
    all_goals first
      | (have hst := (Prod.mk.injEq _ _ _ _).mp (Option.some.inj h)
         exact ⟨h1.1, h1.2, hst.2.symm⟩)
      | simp at h
  · intro st h
    unfold scalpEnsembleSignal at h
    simp only [] at h
    split_ifs at h with h1 h2
    all_goals first
      | (have hst := (Prod.mk.injEq _ _ _ _).mp (Option.some.inj h)
         exact ⟨h2.1, h2.2, hst.2.symm⟩)
      | simp at h


/-- Witness for C8 amended, at the four full-strength agreeing BUY
votes: the smart decision rule facts and the scalping clipping bound,
each obtained from the amended theorem. -/
theorem ensemble_decision_spec_witness :
    smartBuyStrength fullAgreeVotes > smartThreshold Regime.trendingUp ∧
    (0:ℚ) ≤ min (scalpBuyAgg fullAgreeVotes).1 1 ∧
    min (scalpBuyAgg fullAgreeVotes).1 1 ≤ 1 := by
  have hsm : smartEnsembleSignal fullAgreeVotes .trendingUp =
      some (Side.buy, 23/20) := by
    norm_num [smartEnsembleSignal, smartBuyStrength, smartSellStrength,
      smartCombined, smartThreshold, fullAgreeVotes, List.foldl]
  have hsc : scalpEnsembleSignal fullAgreeVotes =
      some (Side.buy, min (6/5 : ℚ) 1) := by
    norm_num [scalpEnsembleSignal, scalpBuyAgg, scalpSellAgg,
      scalpCombined, scalpThreshold, fullAgreeVotes, List.foldl]
  refine ⟨?_, ?_, ?_⟩
  · exact ((ensemble_decision_spec fullAgreeVotes .trendingUp).1 (23/20) hsm).2.1
  · have hb : (scalpBuyAgg fullAgreeVotes).1 = 6/5 := by
      norm_num [scalpBuyAgg, scalpCombined, fullAgreeVotes, List.foldl]
    rw [hb]
    exact ((ensemble_decision_spec fullAgreeVotes .trendingUp).2.2.2.1
      Side.buy (min (6/5 : ℚ) 1) (by rw [← hb] at hsc ⊢; exact hsc)).1
  · have hb : (scalpBuyAgg fullAgreeVotes).1 = 6/5 := by
      norm_num [scalpBuyAgg, scalpCombined, fullAgreeVotes, List.foldl]
    rw [hb]
    exact ((ensemble_decision_spec fullAgreeVotes .trendingUp).2.2.2.1
      Side.buy (min (6/5 : ℚ) 1) (by rw [← hb] at hsc ⊢; exact hsc)).2

/-- The BUY position of spec scenario 3: entry 40000, quantity 1,
SL 39500, TP1 40500, TP2 40750, TP3 41000, RANGING regime. -/
def scenarioPos : Position :=
  { side := .buy
    entryPrice := 40000
    entryQuantity := 1
    currentQuantity := 1
    stopLoss := 39500
    takeProfit := 41000
    tp1 := 40500
    tp1Hit := false
    tp2 := 40750
    tp2Hit := false
    tp3 := 41000
    tp3Hit := false
    regime := .ranging }

/-- An engine state holding `scenarioPos`, capital 10000, fresh
history. -/
def scenarioState : EngineState :=
  { initialCapital := 10000
    maxDrawdown := MAX_DRAWDOWN
    closedTradesPnl := 0
    position := some scenarioPos
    trades := []
    peakEquity := 10000
    stopTrading := false
    equityHistory := []
    currentPrice := 40000 }

/-- C3: the monitor checks stop loss first (a stop breach closes the
position regardless of the TP levels, on both sides), realizes at most
one exit leg per bar, and when TP1 fires first it performs a partial
exit of the TP1 ratio of the remaining quantity, marks tp1_hit, promotes
the stop to the entry price and appends no TradeLog; on the scenario
position the 40500 bar leaves quantity 0.7, stop 40000 and an empty
trade list. -/
theorem monitorPosition_priority_spec (s : EngineState) (p : Position)
    (price : ℚ) (hour : ℕ) :
    (p.side = Side.buy → price ≤ p.stopLoss →
      monitorPosition s p price hour = closePosition s p price .stopLossHit hour) ∧
    (p.side = Side.sell → price ≥ p.stopLoss →
      monitorPosition s p price hour = closePosition s p price .stopLossHit hour) ∧
    (barLegs p price hour).length ≤ 1 ∧
    (p.side = Side.buy → ¬price ≤ p.stopLoss → p.tp1Hit = false →
      price ≥ p.tp1 →
      (monitorPosition s p price hour).trades = s.trades ∧
      (monitorPosition s p price hour).position =
        some { p with
                tp1Hit := true
                stopLoss := p.entryPrice
                currentQuantity :=
                  p.currentQuantity - p.currentQuantity * TP1_EXIT_FRAC }) ∧
    (monitorPosition scenarioState scenarioPos 40500 10).trades = [] ∧
    (monitorPosition scenarioState scenarioPos 40500 10).position =
      some { scenarioPos with
              tp1Hit := true
              stopLoss := 40000
              currentQuantity := 7/10 } := by
  refine ⟨?_, ?_, ?_, ?_, ?_, ?_⟩
  · intro hs hp
    unfold monitorPosition
    rw [hs]
    simp only []
    rw [if_pos hp]
  · intro hs hp
    unfold monitorPosition
    rw [hs]
    simp only []
    rw [if_pos hp]
  · unfold barLegs
    rcases p.side <;> simp only [] <;> split_ifs <;> simp
  · intro hs hnp h1 h2
    unfold monitorPosition
    rw [hs]
    simp only []
    rw [if_neg hnp, if_pos (show p.tp1Hit = false ∧ price ≥ p.tp1 from ⟨h1, h2⟩)]
    exact ⟨rfl, rfl⟩
  · unfold monitorPosition scenarioPos
    simp only []
    norm_num [applyPartExit, scenarioState]
  · unfold monitorPosition scenarioPos scenarioState applyPartExit
    simp only []
    norm_num [Position.mk.injEq, TP1_EXIT_FRAC]

/-- Witness for C3: the stop-loss-first branch applied to the scenario
position at price 39000, and the TP1 branch facts at price 40500. -/
theorem monitorPosition_priority_spec_witness :
    monitorPosition scenarioState scenarioPos 39000 10 =
      closePosition scenarioState scenarioPos 39000 .stopLossHit 10 ∧
    (monitorPosition scenarioState scenarioPos 40500 10).trades =
      scenarioState.trades := by
  constructor
  · exact (monitorPosition_priority_spec scenarioState scenarioPos 39000 10).1
      rfl (by norm_num [scenarioPos])
  · exact ((monitorPosition_priority_spec scenarioState scenarioPos 40500 10).2.2.2.1
      rfl (by norm_num [scenarioPos]) rfl (by norm_num [scenarioPos])).1

/-- Three bars that drive `scenarioPos` through TP1 (40500), TP2 (41000)
and the TP3 full close (41000), all in hour 10 with no entry oracle. -/
def c10Bars : List Bar :=
  [{ price := 40500, hour := 10, hist15Short := false, entrySignal := none },
   { price := 41000, hour := 10, hist15Short := false, entrySignal := none },
   { price := 41000, hour := 10, hist15Short := false, entrySignal := none }]

/-- C10: each TP exit ratio applies to the remaining quantity at the
moment the level is hit, not to the entry quantity: the TP1 bar exits
current x 0.3 and the TP2 bar current x 0.4 of what then remains; on the
scenario position the three legs are 0.30, 0.28 and 0.42 of the entry
quantity, which differ from the configured 0.3 / 0.4 / 0.3 proportions
even though those sum to 1. -/
theorem tpExitRatios_remaining_spec (p : Position)
    (price : ℚ) (hour : ℕ) :
    (p.side = Side.buy → ¬price ≤ p.stopLoss → p.tp1Hit = false →
      price ≥ p.tp1 →
      legsQty (barLegs p price hour) = p.currentQuantity * TP1_EXIT_FRAC) ∧
    (p.side = Side.buy → ¬price ≤ p.stopLoss →
      ¬(p.tp1Hit = false ∧ price ≥ p.tp1) → p.tp2Hit = false →
      price ≥ p.tp2 →
      legsQty (barLegs p price hour) = p.currentQuantity * TP2_EXIT_FRAC) ∧
    TP1_EXIT_FRAC + TP2_EXIT_FRAC + TP3_EXIT_FRAC = 1 ∧
    (runLegs scenarioState c10Bars).map Prod.fst = [3/10, 7/25, 21/50] ∧
    [3/10, 7/25, 21/50] ≠
      [TP1_EXIT_FRAC * scenarioPos.entryQuantity,
       TP2_EXIT_FRAC * scenarioPos.entryQuantity,
       TP3_EXIT_FRAC * scenarioPos.entryQuantity] := by
  refine ⟨?_, ?_, by norm_num [TP1_EXIT_FRAC, TP2_EXIT_FRAC, TP3_EXIT_FRAC], ?_, ?_⟩
  · intro hs hnp h1 h2
    unfold barLegs
    rw [hs]
    simp only []
    rw [if_neg hnp, if_pos (show p.tp1Hit = false ∧ price ≥ p.tp1 from ⟨h1, h2⟩)]
    simp [legsQty]
  · intro hs hnp h1 h2 h3
    unfold barLegs
    rw [hs]
    simp only []
    rw [if_neg hnp, if_neg h1,
      if_pos (show p.tp2Hit = false ∧ price ≥ p.tp2 from ⟨h2, h3⟩)]
    simp [legsQty]
  · norm_num [runLegs, processBar, monitorPosition, applyPartExit,
      applyExitSlippage, calculateSlippage, hourlySpread, volumeMultiplier,
      regimeMultiplier, recordEquity, currentEquity, Position.calculatePnl,
      closePosition, exitLegPnl, barLegs, scenarioState, scenarioPos,
      c10Bars, TP1_EXIT_FRAC, TP2_EXIT_FRAC, MAX_DRAWDOWN,
      min_def, max_def]
  · norm_num [TP1_EXIT_FRAC, TP2_EXIT_FRAC, TP3_EXIT_FRAC, scenarioPos]

/-- Witness for C10: the TP1 bar on the scenario position exits 0.3 of
the remaining (= entry) quantity. -/
theorem tpExitRatios_remaining_spec_witness :
    legsQty (barLegs scenarioPos 40500 10) =
      scenarioPos.currentQuantity * TP1_EXIT_FRAC :=
  (tpExitRatios_remaining_spec scenarioPos 40500 10).1
    rfl (by norm_num [scenarioPos]) rfl (by norm_num [scenarioPos])

/-- Per-bar accounting of the monitor: the accumulator gains exactly the
PnL of the bar legs; a surviving position keeps its identity fields and
loses exactly the leg quantities; a vanished position exited exactly its
remaining quantity; and the leg quantity is between zero and the
remaining quantity. -/
theorem monitorPosition_legs (s : EngineState) (p : Position) (price : ℚ)
    (hour : ℕ) :
    (monitorPosition s p price hour).closedTradesPnl =
      s.closedTradesPnl + legsPnl p.side p.entryPrice (barLegs p price hour) ∧
    (∀ p2, (monitorPosition s p price hour).position = some p2 →
      p2.side = p.side ∧ p2.entryPrice = p.entryPrice ∧
      p2.entryQuantity = p.entryQuantity ∧ p2.regime = p.regime ∧
      p2.currentQuantity = p.currentQuantity - legsQty (barLegs p price hour)) ∧
    ((monitorPosition s p price hour).position = none →
      legsQty (barLegs p price hour) = p.currentQuantity) ∧
    (0 ≤ p.currentQuantity →
      0 ≤ legsQty (barLegs p price hour) ∧
      legsQty (barLegs p price hour) ≤ p.currentQuantity) := by
  have hr1 : ∀ q : ℚ, 0 ≤ q → 0 ≤ q * TP1_EXIT_FRAC ∧ q * TP1_EXIT_FRAC ≤ q := by
    intro q hq
    simp only [TP1_EXIT_FRAC]
    constructor <;> nlinarith
  have hr2 : ∀ q : ℚ, 0 ≤ q → 0 ≤ q * TP2_EXIT_FRAC ∧ q * TP2_EXIT_FRAC ≤ q := by
    intro q hq
    simp only [TP2_EXIT_FRAC]
    constructor <;> nlinarith
  unfold monitorPosition barLegs
  cases hs : p.side
  all_goals simp only []
  all_goals split_ifs with h1 h2 h3 h4
  · refine ⟨by simp [closePosition, legsPnl, exitLegPnl, hs], ?_, ?_, ?_⟩
    · intro p2 h
      simp [closePosition] at h
    · intro _
      simp [legsQty]
    · intro hq
      simp [legsQty, hq]
  · refine ⟨by simp [applyPartExit, legsPnl, exitLegPnl], ?_, ?_, ?_⟩
    · intro p2 h
      simp only [Option.some.injEq] at h
      subst h
      refine ⟨by simp [applyPartExit], by simp [applyPartExit],
        by simp [applyPartExit], by simp [applyPartExit], ?_⟩
      simp [applyPartExit, legsQty]
    · intro h
      simp at h
    · intro hq
      simpa [legsQty] using hr1 p.currentQuantity hq
  · refine ⟨by simp [applyPartExit, legsPnl, exitLegPnl], ?_, ?_, ?_⟩
    · intro p2 h
      simp only [Option.some.injEq] at h
      subst h
      refine ⟨by simp [applyPartExit], by simp [applyPartExit],
        by simp [applyPartExit], by simp [applyPartExit], ?_⟩
      simp [applyPartExit, legsQty]
    · intro h
      simp at h
    · intro hq
      simpa [legsQty] using hr2 p.currentQuantity hq
  · refine ⟨by simp [closePosition, legsPnl, exitLegPnl, hs], ?_, ?_, ?_⟩
    · intro p2 h
      simp [closePosition] at h
    · intro _
      simp [legsQty]
    · intro hq
      simp [legsQty, hq]
  · refine ⟨by simp [legsPnl], ?_, ?_, ?_⟩
    · intro p2 h
      simp only [Option.some.injEq] at h
      subst h
      exact ⟨hs, rfl, rfl, rfl, by simp [legsQty]⟩
    · intro h
      simp at h
    · intro hq
      simp [legsQty, hq]
  · refine ⟨by simp [closePosition, legsPnl, exitLegPnl, hs], ?_, ?_, ?_⟩
    · intro p2 h
      simp [closePosition] at h
    · intro _
      simp [legsQty]
    · intro hq
      simp [legsQty, hq]
  · refine ⟨by simp [applyPartExit, legsPnl, exitLegPnl], ?_, ?_, ?_⟩
    · intro p2 h
      simp only [Option.some.injEq] at h
      subst h
      refine ⟨by simp [applyPartExit], by simp [applyPartExit],
        by simp [applyPartExit], by simp [applyPartExit], ?_⟩
      simp [applyPartExit, legsQty]
    · intro h
      simp at h
    · intro hq
      simpa [legsQty] using hr1 p.currentQuantity hq
  · refine ⟨by simp [applyPartExit, legsPnl, exitLegPnl], ?_, ?_, ?_⟩
    · intro p2 h
      simp only [Option.some.injEq] at h
      subst h
      refine ⟨by simp [applyPartExit], by simp [applyPartExit],
        by simp [applyPartExit], by simp [applyPartExit], ?_⟩
      simp [applyPartExit, legsQty]
    · intro h
      simp at h
    · intro hq
      simpa [legsQty] using hr2 p.currentQuantity hq
  · refine ⟨by simp [closePosition, legsPnl, exitLegPnl, hs], ?_, ?_, ?_⟩
    · intro p2 h
      simp [closePosition] at h
    · intro _
      simp [legsQty]
    · intro hq
      simp [legsQty, hq]
  · refine ⟨by simp [legsPnl], ?_, ?_, ?_⟩
    · intro p2 h
      simp only [Option.some.injEq] at h
      subst h
      exact ⟨hs, rfl, rfl, rfl, by simp [legsQty]⟩
    · intro h
      simp at h
    · intro hq
      simp [legsQty, hq]

/-- Leg PnL distributes over list append. -/
theorem legsPnl_append (side : Side) (e : ℚ) (l1 l2 : List (ℚ × ℚ)) :
    legsPnl side e (l1 ++ l2) = legsPnl side e l1 + legsPnl side e l2 := by
  simp [legsPnl]

/-- Leg quantity distributes over list append. -/
theorem legsQty_append (l1 l2 : List (ℚ × ℚ)) :
    legsQty (l1 ++ l2) = legsQty l1 + legsQty l2 := by
  simp [legsQty]

/-- Recording equity touches only the peak, the stop flag and the
history. -/
theorem recordEquity_preserves (s : EngineState) :
    (recordEquity s).closedTradesPnl = s.closedTradesPnl ∧
    (recordEquity s).position = s.position ∧
    (recordEquity s).trades = s.trades :=
  ⟨rfl, rfl, rfl⟩

/-- A short-15m bar only updates the current price. -/
theorem processBar_skip (s : EngineState) (b : Bar)
    (h : b.hist15Short = true) :
    processBar s b = { s with currentPrice := b.price } := by
  unfold processBar
  rw [if_pos h]

/-- A full bar with an open position monitors it and records equity. -/
theorem processBar_monitor (s : EngineState) (b : Bar) (p : Position)
    (hb : b.hist15Short = false) (hp : s.position = some p) :
    processBar s b =
      recordEquity
        (monitorPosition { s with currentPrice := b.price } p b.price b.hour) := by
  unfold processBar
  rw [if_neg (by simp [hb])]
  simp [hp]

/-- A full bar with no position takes the entry outcome and records
equity. -/
theorem processBar_entry (s : EngineState) (b : Bar)
    (hb : b.hist15Short = false) (hp : s.position = none) :
    processBar s b =
      recordEquity
        { s with currentPrice := b.price, position := b.entrySignal } := by
  unfold processBar
  rw [if_neg (by simp [hb])]
  simp [hp]

/-- With no open position and no entry oracle on any bar, the loop
changes neither the accumulator, the trades nor the position, and
realizes no legs. -/
theorem runLoop_flat (bars : List Bar) (s : EngineState)
    (hp : s.position = none)
    (hb : ∀ b ∈ bars, b.entrySignal = none) :
    (runLoop s bars).closedTradesPnl = s.closedTradesPnl ∧
    (runLoop s bars).position = none ∧
    (runLoop s bars).trades = s.trades ∧
    runLegs s bars = [] := by
  induction bars generalizing s with
  | nil => exact ⟨rfl, hp, rfl, rfl⟩
  | cons b rest ih =>
    simp only [runLoop, runLegs]
    by_cases hstop : s.stopTrading = true
    · rw [if_pos hstop, if_pos hstop]
      exact ⟨rfl, hp, rfl, rfl⟩
    · rw [if_neg hstop, if_neg hstop]
      have hbb : b.entrySignal = none := hb b (List.mem_cons_self _ _)
      have hnext : (processBar s b).position = none ∧
          (processBar s b).closedTradesPnl = s.closedTradesPnl ∧
          (processBar s b).trades = s.trades := by
        by_cases hh : b.hist15Short = true
        · rw [processBar_skip s b hh]
          exact ⟨hp, rfl, rfl⟩
        · rw [processBar_entry s b (by simpa using hh) hp]
          exact ⟨by simp [recordEquity, hbb], by simp [recordEquity],
            by simp [recordEquity]⟩
      obtain ⟨hpn, hcp, htr⟩ := hnext
      obtain ⟨i1, i2, i3, i4⟩ :=
        ih (processBar s b) hpn (fun x hx => hb x (List.mem_cons_of_mem _ hx))
      refine ⟨by rw [i1, hcp], i2, by rw [i3, htr], ?_⟩
      rw [hp]
      simp [i4]

/-- One step of the loop when the stop flag is clear. -/
theorem runLoop_cons (s : EngineState) (b : Bar) (rest : List Bar)
    (hstop : s.stopTrading = false) :
    runLoop s (b :: rest) = runLoop (processBar s b) rest := by
  simp only [runLoop]
  rw [if_neg (by simp [hstop])]

/-- The loop and its legs when the stop flag is set. -/
theorem runLoop_cons_stop (s : EngineState) (b : Bar) (rest : List Bar)
    (hstop : s.stopTrading = true) :
    runLoop s (b :: rest) = s ∧ runLegs s (b :: rest) = [] := by
  simp only [runLoop, runLegs]
  rw [if_pos hstop, if_pos hstop]
  exact ⟨rfl, rfl⟩

/-- The legs of a short-15m bar. -/
theorem runLegs_cons_skip (s : EngineState) (b : Bar) (rest : List Bar)
    (hstop : s.stopTrading = false) (hb : b.hist15Short = true) :
    runLegs s (b :: rest) = runLegs (processBar s b) rest := by
  simp only [runLegs]
  rw [if_neg (by simp [hstop]), if_pos hb]
  simp

/-- The legs of a full bar with an open position. -/
theorem runLegs_cons_monitor (s : EngineState) (b : Bar) (rest : List Bar)
    (p : Position) (hstop : s.stopTrading = false)
    (hb : b.hist15Short = false) (hp : s.position = some p) :
    runLegs s (b :: rest) =
      barLegs p b.price b.hour ++ runLegs (processBar s b) rest := by
  simp only [runLegs]
  rw [if_neg (by simp [hstop]), if_neg (by simp [hb]), hp]

/-- The loop-level conservation invariant for one open position with no
re-entry oracle: the accumulator gains exactly the PnL of the realized
legs, the realized quantity stays between zero and the starting
quantity, a surviving position keeps its identity fields and has lost
exactly the realized quantity, and a closed position realized exactly
its starting quantity. -/
theorem runLoop_legs_invariant (bars : List Bar) (s : EngineState)
    (p0 : Position) (hpos : s.position = some p0)
    (hq : 0 ≤ p0.currentQuantity)
    (hbars : ∀ b ∈ bars, b.entrySignal = none) :
    ((runLoop s bars).closedTradesPnl =
      s.closedTradesPnl + legsPnl p0.side p0.entryPrice (runLegs s bars)) ∧
    (0 ≤ legsQty (runLegs s bars) ∧
      legsQty (runLegs s bars) ≤ p0.currentQuantity) ∧
    (∀ pN, (runLoop s bars).position = some pN →
      pN.side = p0.side ∧ pN.entryPrice = p0.entryPrice ∧
      pN.entryQuantity = p0.entryQuantity ∧ pN.regime = p0.regime ∧
      0 ≤ pN.currentQuantity ∧
      pN.currentQuantity = p0.currentQuantity - legsQty (runLegs s bars)) ∧
    ((runLoop s bars).position = none →
      legsQty (runLegs s bars) = p0.currentQuantity) := by
  induction bars generalizing s p0 with
  | nil =>
    refine ⟨by simp [runLoop, runLegs, legsPnl],
      ⟨by simp [runLegs, legsQty], by simpa [runLegs, legsQty] using hq⟩, ?_, ?_⟩
    · intro pN h
      obtain rfl := Option.some.inj (hpos.symm.trans h)
      exact ⟨rfl, rfl, rfl, rfl, hq, by simp [runLegs, legsQty]⟩
    · intro h
      exact absurd (hpos.symm.trans h) (by simp)
  | cons b rest ih =>
    by_cases hstop : s.stopTrading = true
    · obtain ⟨hl, hg⟩ := runLoop_cons_stop s b rest hstop
      rw [hl, hg]
      refine ⟨by simp [legsPnl],
        ⟨by simp [legsQty], by simpa [legsQty] using hq⟩, ?_, ?_⟩
      · intro pN h
        obtain rfl := Option.some.inj (hpos.symm.trans h)
        exact ⟨rfl, rfl, rfl, rfl, hq, by simp [legsQty]⟩
      · intro h
        exact absurd (hpos.symm.trans h) (by simp)
    · have hstop2 : s.stopTrading = false := by simpa using hstop
      have hbrest : ∀ x ∈ rest, x.entrySignal = none :=
        fun x hx => hbars x (List.mem_cons_of_mem _ hx)
      rw [runLoop_cons s b rest hstop2]
      by_cases hh : b.hist15Short = true
      · rw [runLegs_cons_skip s b rest hstop2 hh, processBar_skip s b hh]
        obtain ⟨i1, i2, i3, i4⟩ :=
          ih { s with currentPrice := b.price } p0 hpos hq hbrest
        refine ⟨by simpa using i1, by simpa using i2, ?_, by simpa using i4⟩
        intro pN h
        simpa using i3 pN h
      · have hh2 : b.hist15Short = false := by simpa using hh
        rw [runLegs_cons_monitor s b rest p0 hstop2 hh2 hpos,
          processBar_monitor s b p0 hh2 hpos]
        set s1 := monitorPosition { s with currentPrice := b.price } p0
          b.price b.hour with hs1
        obtain ⟨a1, a2, a3, a4⟩ :=
          monitorPosition_legs { s with currentPrice := b.price } p0
            b.price b.hour
        have a1s : s1.closedTradesPnl =
            s.closedTradesPnl +
              legsPnl p0.side p0.entryPrice (barLegs p0 b.price b.hour) := a1
        have a2s : ∀ p2, s1.position = some p2 →
            p2.side = p0.side ∧ p2.entryPrice = p0.entryPrice ∧
            p2.entryQuantity = p0.entryQuantity ∧ p2.regime = p0.regime ∧
            p2.currentQuantity =
              p0.currentQuantity - legsQty (barLegs p0 b.price b.hour) := a2
        have a3s : s1.position = none →
            legsQty (barLegs p0 b.price b.hour) = p0.currentQuantity := a3
        obtain ⟨aq0, aq1⟩ := a4 hq
        rcases hp1 : s1.position with _ | p2
        · obtain ⟨f1, f2, f3, f4⟩ :=
            runLoop_flat rest (recordEquity s1)
              (show (recordEquity s1).position = none from hp1) hbrest
          have hqb := a3s hp1
          have hacc : (recordEquity s1).closedTradesPnl =
              s.closedTradesPnl +
                legsPnl p0.side p0.entryPrice (barLegs p0 b.price b.hour) := a1s
          refine ⟨?_, ?_, ?_, ?_⟩
          · rw [f1, f4, hacc, legsPnl_append]
            simp [legsPnl]
          · rw [f4, legsQty_append]
            constructor
            · simpa [legsQty] using aq0
            · simpa [legsQty] using aq1
          · intro pN h
            rw [f2] at h
            cases h
          · intro _
            rw [f4, legsQty_append, hqb]
            simp [legsQty]
        · have hpos2 : (recordEquity s1).position = some p2 := hp1
          obtain ⟨e1, e2, e3, e4, e5⟩ := a2s p2 hp1
          have hq2 : 0 ≤ p2.currentQuantity := by
            rw [e5]; linarith
          obtain ⟨i1, i2, i3, i4⟩ := ih (recordEquity s1) p2 hpos2 hq2 hbrest
          have hacc : (recordEquity s1).closedTradesPnl =
              s.closedTradesPnl +
                legsPnl p0.side p0.entryPrice (barLegs p0 b.price b.hour) := a1s
          refine ⟨?_, ?_, ?_, ?_⟩
          · rw [i1, legsPnl_append, hacc, e1, e2]
            ring
          · rw [legsQty_append]
            constructor
            · linarith [i2.1]
            · have h2b := i2.2
              rw [e5] at h2b
              linarith
          · intro pN h
            obtain ⟨j1, j2, j3, j4, j5, j6⟩ := i3 pN h
            refine ⟨j1.trans e1, j2.trans e2, j3.trans e3, j4.trans e4, j5, ?_⟩
            rw [j6, e5, legsQty_append]
            ring
          · intro h
            have hlast := i4 h
            rw [legsQty_append, hlast, e5]
            ring

/-- C2: over any monitored lifecycle of one position, the entry quantity
equals the current quantity plus the realized exit quantities, the
current quantity never increases, and the realized-PnL accumulator gains
exactly the sum over all exit legs of the side-signed difference between
the slippage-adjusted leg exit price and the entry price times the leg
quantity. -/
theorem quantity_pnl_conservation_spec (bars : List Bar) (s : EngineState)
    (p0 : Position) (hpos : s.position = some p0)
    (hq : 0 ≤ p0.currentQuantity)
    (hbars : ∀ b ∈ bars, b.entrySignal = none) :
    ((runLoop s bars).closedTradesPnl =
      s.closedTradesPnl + legsPnl p0.side p0.entryPrice (runLegs s bars)) ∧
    (∀ pN, (runLoop s bars).position = some pN →
      pN.entryQuantity = p0.entryQuantity ∧
      pN.currentQuantity = p0.currentQuantity - legsQty (runLegs s bars) ∧
      pN.currentQuantity ≤ p0.currentQuantity ∧
      (p0.currentQuantity = p0.entryQuantity →
        pN.entryQuantity = pN.currentQuantity + legsQty (runLegs s bars))) ∧
    ((runLoop s bars).position = none →
      legsQty (runLegs s bars) = p0.currentQuantity) := by
  obtain ⟨h1, h2, h3, h4⟩ := runLoop_legs_invariant bars s p0 hpos hq hbars
  refine ⟨h1, ?_, h4⟩
  intro pN hpN
  obtain ⟨-, -, hqe, -, -, hcq⟩ := h3 pN hpN
  refine ⟨hqe, hcq, by rw [hcq]; linarith [h2.1], ?_⟩
  intro h0
  rw [hqe, ← h0, hcq]
  ring

/-- Witness for C2 at the scenario position through the TP1-TP2-TP3 bar
sequence. -/
theorem quantity_pnl_conservation_spec_witness :
    ((runLoop scenarioState c10Bars).closedTradesPnl =
      scenarioState.closedTradesPnl +
        legsPnl scenarioPos.side scenarioPos.entryPrice
          (runLegs scenarioState c10Bars)) ∧
    ((runLoop scenarioState c10Bars).position = none →
      legsQty (runLegs scenarioState c10Bars) =
        scenarioPos.currentQuantity) := by
  have h := quantity_pnl_conservation_spec c10Bars scenarioState scenarioPos
    rfl (by norm_num [scenarioPos])
    (by
      intro b hb
      simp only [c10Bars, List.mem_cons, List.not_mem_nil, or_false] at hb
      rcases hb with rfl | rfl | rfl <;> rfl)
  exact ⟨h.1, h.2.2⟩

/-- The TradeLog `_close_position` appends for a position and a trigger
price. -/
def closeTrade (p : Position) (exitPrice : ℚ) (reason : ExitReason)
    (hour : ℕ) : TradeLog :=
  { side := p.side
    entryPrice := p.entryPrice
    entryQuantity := p.entryQuantity
    stopLoss := p.stopLoss
    takeProfit := p.takeProfit
    exitPrice := applyExitSlippage exitPrice p.side 1 p.regime hour
    exitQuantity := p.currentQuantity
    exitReason := reason
    pnl := exitLegPnl p.side p.entryPrice
      (applyExitSlippage exitPrice p.side 1 p.regime hour) p.currentQuantity
    winning := decide (exitLegPnl p.side p.entryPrice
      (applyExitSlippage exitPrice p.side 1 p.regime hour) p.currentQuantity > 0) }

/-- C1 amended: every terminal close appends exactly one TradeLog and its
pnl field is the realized PnL of the final leg alone, computed on the
quantity remaining at close; partial TP1 and TP2 exits append no
TradeLog; the sum over all legs lives in the closed_trades_pnl
accumulator, one leg per exit. -/
theorem tradeLog_final_leg_spec (s : EngineState) (p : Position)
    (price : ℚ) (reason : ExitReason) (hour : ℕ) :
    ((closePosition s p price reason hour).trades =
      s.trades ++ [closeTrade p price reason hour]) ∧
    ((closeTrade p price reason hour).pnl =
      exitLegPnl p.side p.entryPrice
        (applyExitSlippage price p.side 1 p.regime hour) p.currentQuantity) ∧
    ((closePosition s p price reason hour).closedTradesPnl =
      s.closedTradesPnl + (closeTrade p price reason hour).pnl) ∧
    (p.side = Side.buy → ¬price ≤ p.stopLoss → p.tp1Hit = false →
      price ≥ p.tp1 →
      (monitorPosition s p price hour).trades = s.trades) ∧
    (p.side = Side.buy → ¬price ≤ p.stopLoss →
      ¬(p.tp1Hit = false ∧ price ≥ p.tp1) → p.tp2Hit = false →
      price ≥ p.tp2 →
      (monitorPosition s p price hour).trades = s.trades) := by
  refine ⟨rfl, rfl, rfl, ?_, ?_⟩
  · intro hs hnp h1 h2
    unfold monitorPosition
    rw [hs]
    simp only []
    rw [if_neg hnp, if_pos (show p.tp1Hit = false ∧ price ≥ p.tp1 from ⟨h1, h2⟩)]
    simp [applyPartExit]
  · intro hs hnp h1 h2 h3
    unfold monitorPosition
    rw [hs]
    simp only []
    rw [if_neg hnp, if_neg h1,
      if_pos (show p.tp2Hit = false ∧ price ≥ p.tp2 from ⟨h2, h3⟩)]
    simp [applyPartExit]

/-- Witness for C1 amended: one TradeLog appended on a close of the
scenario position, and no TradeLog on its TP1 partial exit. -/
theorem tradeLog_final_leg_spec_witness :
    (closePosition scenarioState scenarioPos 39000 .stopLossHit 10).trades =
      scenarioState.trades ++ [closeTrade scenarioPos 39000 .stopLossHit 10] ∧
    (monitorPosition scenarioState scenarioPos 40500 10).trades =
      scenarioState.trades := by
  constructor
  · exact (tradeLog_final_leg_spec scenarioState scenarioPos 39000
      .stopLossHit 10).1
  · exact (tradeLog_final_leg_spec scenarioState scenarioPos 40500
      .stopLossHit 10).2.2.2.1 rfl (by norm_num [scenarioPos]) rfl
      (by norm_num [scenarioPos])

/-- Two bars: a TP1 partial exit at 40500, then a stop at 39900 against
the promoted breakeven stop. -/
def c1Bars : List Bar :=
  [{ price := 40500, hour := 10, hist15Short := false, entrySignal := none },
   { price := 39900, hour := 10, hist15Short := false, entrySignal := none }]

/-- C1 counterexample: running the scenario position through a TP1
partial exit and a stop-loss close produces exactly one TradeLog whose
pnl field is the final-leg PnL -145.411, while the realized PnL of all
legs of the position sums to -28.216: the TradeLog pnl does not equal
the sum of the partial and final legs. -/
theorem tradeLogPnl_not_sum_cex :
    (runLoop scenarioState c1Bars).trades.map TradeLog.pnl = [-145411/1000] ∧
    (runLoop scenarioState c1Bars).closedTradesPnl = -3527/125 ∧
    legsPnl scenarioPos.side scenarioPos.entryPrice
      (runLegs scenarioState c1Bars) = -3527/125 ∧
    ¬(-145411/1000 : ℚ) = -3527/125 := by
  refine ⟨?_, ?_, ?_, by norm_num⟩ <;>
    norm_num [runLoop, runLegs, processBar, monitorPosition, applyPartExit,
      applyExitSlippage, calculateSlippage, hourlySpread, volumeMultiplier,
      regimeMultiplier, recordEquity, currentEquity, Position.calculatePnl,
      closePosition, exitLegPnl, barLegs, legsPnl, scenarioState, scenarioPos,
      c1Bars, TP1_EXIT_FRAC, MAX_DRAWDOWN, min_def, max_def]

/-- Every state change of the monitor leaves the stop flag alone. -/
theorem monitorPosition_stopTrading (s : EngineState) (p : Position)
    (price : ℚ) (hour : ℕ) :
    (monitorPosition s p price hour).stopTrading = s.stopTrading := by
  unfold monitorPosition
  cases hs : p.side
  all_goals simp only []
  all_goals split_ifs
  all_goals simp [closePosition, applyPartExit]

/-- The state of spec scenario 4: initial capital 10000, closed PnL
-1100 (equity 8900), peak 10500, limit 0.15, no open position. -/
def ddState : EngineState :=
  { initialCapital := 10000
    maxDrawdown := MAX_DRAWDOWN
    closedTradesPnl := -1100
    position := none
    trades := []
    peakEquity := 10500
    stopTrading := false
    equityHistory := []
    currentPrice := 0 }

/-- C4: the equity recorder computes the drawdown as
(peak - equity) / peak with the refreshed peak, sets the one-way
stop_trading flag exactly when the drawdown strictly exceeds the
configured limit, the flag survives every bar, and once set the loop
processes no further bar (so no new position is ever opened in the rest
of the run). -/
theorem killSwitch_spec (s : EngineState) (b : Bar) (bars : List Bar) :
    (currentEquity s ≤ s.peakEquity → 0 < s.peakEquity →
      currentDrawdown s = (s.peakEquity - currentEquity s) / s.peakEquity) ∧
    ((recordEquity s).stopTrading = true ↔
      s.stopTrading = true ∨ currentDrawdown s > s.maxDrawdown) ∧
    (s.stopTrading = true → (processBar s b).stopTrading = true) ∧
    (s.stopTrading = true → runLoop s bars = s) := by
  refine ⟨?_, ?_, ?_, ?_⟩
  · intro h1 h2
    unfold currentDrawdown
    simp only []
    rw [if_neg (not_lt.mpr h1), if_pos h2]
  · simp [recordEquity, currentDrawdown]
  · intro h
    by_cases hh : b.hist15Short = true
    · rw [processBar_skip s b hh]
      exact h
    · rcases hsp : s.position with _ | p
      · rw [processBar_entry s b (by simpa using hh) hsp]
        simp [recordEquity, h]
      · rw [processBar_monitor s b p (by simpa using hh) hsp]
        simp [recordEquity, monitorPosition_stopTrading, h]
  · intro h
    cases bars with
    | nil => rfl
    | cons x xs =>
      simp only [runLoop]
      rw [if_pos h]

/-- Witness for C4: on the scenario state the drawdown 1600 / 10500
exceeds 0.15 and the recorder raises the flag; a state with the flag set
passes through the loop untouched. -/
theorem killSwitch_spec_witness :
    (recordEquity ddState).stopTrading = true ∧
    runLoop { ddState with stopTrading := true } c1Bars =
      { ddState with stopTrading := true } := by
  constructor
  · exact (killSwitch_spec ddState ⟨0, 0, false, none⟩ []).2.1.mpr
      (Or.inr (by
        norm_num [currentDrawdown, currentEquity, ddState, MAX_DRAWDOWN]))
  · exact (killSwitch_spec { ddState with stopTrading := true }
      ⟨0, 0, false, none⟩ c1Bars).2.2.2 rfl

/-- A run with sufficient, synchronized data and one bar that yields no
entry signal. -/
def c9Input : BacktestInput :=
  { df5mEmpty := false
    df15mEmpty := false
    syncOk := true
    len5m := 150
    len15m := 60
    bars := [{ price := 40000, hour := 10, hist15Short := false,
               entrySignal := none }] }

/-- A fresh engine state with no position and no trades. -/
def freshState : EngineState :=
  { initialCapital := 10000
    maxDrawdown := MAX_DRAWDOWN
    closedTradesPnl := 0
    position := none
    trades := []
    peakEquity := 10000
    stopTrading := false
    equityHistory := []
    currentPrice := 0 }

/-- C9 counterexample: a run whose data is present, synchronized and
long enough still returns a top-level failure record when it executes
no trade. -/
theorem runBacktest_error_on_no_trades_cex :
    runBacktest c9Input freshState 10 = .failure .noTrades ∧
    c9Input.df5mEmpty = false ∧ c9Input.df15mEmpty = false ∧
    c9Input.syncOk = true ∧ 50 ≤ c9Input.len5m ∧ 10 ≤ c9Input.len15m := by
  refine ⟨?_, rfl, rfl, rfl, by norm_num [c9Input], by norm_num [c9Input]⟩
  norm_num [runBacktest, finalState, runLoop, processBar, recordEquity,
    currentEquity, c9Input, freshState, MAX_DRAWDOWN]

/-- C9 amended: the backtest returns a failure record exactly when a
data frame is empty, synchronization fails, the synchronized lengths are
insufficient, or the completed run holds no closed trade; in every other
case it returns the result record carrying the accumulated trades and
equity curve. -/
theorem runBacktest_failure_spec (inp : BacktestInput) (s : EngineState)
    (finalHour : ℕ) :
    ((∃ r, runBacktest inp s finalHour = .failure r) ↔
      inp.df5mEmpty = true ∨ inp.df15mEmpty = true ∨ inp.syncOk = false ∨
      inp.len5m < 50 ∨ inp.len15m < 10 ∨
      (finalState inp s finalHour).trades = []) ∧
    (∀ tr eq, runBacktest inp s finalHour = .ok tr eq →
      tr = (finalState inp s finalHour).trades ∧
      eq = (finalState inp s finalHour).equityHistory) := by
  constructor
  · unfold runBacktest
    simp only []
    split_ifs with h1 h2 h3 h4
    · refine iff_of_true ⟨.noData, rfl⟩ ?_
      rcases (by simpa using h1 : inp.df5mEmpty = true ∨ inp.df15mEmpty = true)
        with h | h
      · exact Or.inl h
      · exact Or.inr (Or.inl h)
    · refine iff_of_true ⟨.syncError, rfl⟩ ?_
      exact Or.inr (Or.inr (Or.inl (by simpa using h2)))
    · refine iff_of_true ⟨.insufficientData, rfl⟩ ?_
      rcases (by simpa using h3 : inp.len5m < 50 ∨ inp.len15m < 10) with h | h
      · exact Or.inr (Or.inr (Or.inr (Or.inl h)))
      · exact Or.inr (Or.inr (Or.inr (Or.inr (Or.inl h))))
    · refine iff_of_true ⟨.noTrades, rfl⟩ ?_
      exact Or.inr (Or.inr (Or.inr (Or.inr (Or.inr
        (by simpa [List.isEmpty_iff] using h4)))))
    · refine iff_of_false (by simp) ?_
      simp only [Bool.or_eq_true, not_or] at h1
      rintro (h | h | h | h | h | h)
      · exact absurd h h1.1
      · exact absurd h h1.2
      · rw [h] at h2
        simp at h2
      · exact h3 (by simp [h])
      · exact h3 (by simp [h])
      · refine h4 ?_
        simpa [List.isEmpty_iff] using h
  · intro tr eq h
    unfold runBacktest at h
    simp only [] at h
    split_ifs at h
    obtain ⟨h1, h2⟩ := (RunResult.ok.injEq _ _ _ _).mp h
    exact ⟨h1.symm, h2.symm⟩

/-- Witness for C9 amended: the failure characterization instantiated on
the no-trade run. -/
theorem runBacktest_failure_spec_witness :
    c9Input.df5mEmpty = true ∨ c9Input.df15mEmpty = true ∨
    c9Input.syncOk = false ∨ c9Input.len5m < 50 ∨ c9Input.len15m < 10 ∨
    (finalState c9Input freshState 10).trades = [] := by
  refine (runBacktest_failure_spec c9Input freshState 10).1.mp ⟨.noTrades, ?_⟩
  norm_num [runBacktest, finalState, runLoop, processBar, recordEquity,
    currentEquity, c9Input, freshState, MAX_DRAWDOWN]

end ScalpingTrade
